import Mathlib

/-!
# Verification of the Freesound back-end core against its specification

Shallow embedding of the core logic of `src/core/spotify.js` and
`src/core/youtube.js`:

* the per-session token lifecycle (`refreshUserAccessToken`, `getUserTokens`),
* the read-through cache helper (`_getWithCache`),
* the multi-type search aggregator (`searchMultiType` and its inner
  `calculateRelevance`, deduplication, interleaving and final sort),
* the media resolver's duration-window candidate selection
  (`searchAndDownload`).

Effectful JavaScript is modelled by explicit state passing: the Redis-backed
cache and the session object become explicit values, HTTP calls to the
identity provider become an explicit `ProviderResp` input, and `throw`
becomes an explicit error constructor.  JavaScript numbers are modelled as
`Int`/`Nat` where the code only ever computes with integers, and as `ℚ`
where fractional values occur (relevance multipliers 0.5/0.3/0.2, duration
seconds and the 0.10 tolerance factor).
-/

namespace Freesound

/-! ## Data model: credential records and provider responses

`session.tokens` as written by `setUserTokens` (src/core/spotify.js:95-110):
`{ accessToken, refreshToken, expiresAt, scope }`.  A missing
`refreshToken` field is modelled as `none`. -/

structure Tokens where
  accessToken : String
  refreshToken : Option String
  expiresAt : Int
  scope : String
deriving DecidableEq

/-- The JSON body returned by the identity provider's token endpoint:
`{access_token, refresh_token?, expires_in, scope}`. -/
structure TokenData where
  access_token : String
  refresh_token : Option String
  expires_in : Int
  scope : String
deriving DecidableEq

/-- Outcome of one HTTP call to the token endpoint, as observed by
`refreshUserAccessToken`: a success body, a non-ok HTTP status, or a
network-level error (the `fetch` promise rejecting). -/
inductive ProviderResp
  | ok (data : TokenData)
  | httpErr (status : Nat)
  | netErr
deriving DecidableEq

/-- `setUserTokens` (src/core/spotify.js:95-110): the credential record
written into the session from a token-endpoint body, with
`expiresAt = Date.now() + expires_in * 1000`. -/
def setUserTokens (now : Int) (d : TokenData) : Tokens :=
  { accessToken := d.access_token
    refreshToken := d.refresh_token
    expiresAt := now + d.expires_in * 1000
    scope := d.scope }

/-- What `refreshUserAccessToken` does from the caller's point of view:
returns the new access token, returns `null` (no refresh token present),
or throws (carrying the HTTP status when the provider answered non-ok,
`none` for a network error). -/
inductive RefreshOutcome
  | ok (accessToken : String)
  | nullOut
  | thrown (status : Option Nat)
deriving DecidableEq

/-- `refreshUserAccessToken` (src/core/spotify.js:112-157), with the
session's mutable `tokens` field passed explicitly and the provider's
answer given as an input.  Returns the session's tokens after the call
together with the outcome:
* no tokens / no refresh token: `delete session.tokens; return null`;
* provider status 400 or 401: `delete session.tokens; session.save()` then
  `throw`;
* any other non-ok status or a network error: `throw` with the record
  untouched;
* success: overwrite the record via `setUserTokens`, keeping the old
  refresh token when the provider omits one, and return the new access
  token. -/
def refreshUserAccessToken (tokens? : Option Tokens) (now : Int)
    (resp : ProviderResp) : Option Tokens × RefreshOutcome :=
  match tokens? with
  | none => (none, .nullOut)
  | some t =>
    match t.refreshToken with
    | none => (none, .nullOut)
    | some rt =>
      match resp with
      | .httpErr s =>
        if s = 400 ∨ s = 401 then (none, .thrown (some s))
        else (some t, .thrown (some s))
      | .netErr => (some t, .thrown none)
      | .ok d =>
        let newTok := setUserTokens now
          { d with refresh_token := some (d.refresh_token.getD rt) }
        (some newTok, .ok newTok.accessToken)

/-- `getUserTokens` (src/core/spotify.js:159-177).  Result components:
the session's tokens after the call, the value returned to the caller
(`none` models `null`), and whether the refresh path was entered
(`tokens.expiresAt <= Date.now() + 60000`). -/
def getUserTokens (tokens? : Option Tokens) (now : Int)
    (resp : ProviderResp) : Option Tokens × Option Tokens × Bool :=
  match tokens? with
  | none => (none, none, false)
  | some t =>
    if t.expiresAt ≤ now + 60000 then
      match refreshUserAccessToken (some t) now resp with
      | (st, .ok _) => (st, st, true)
      | (st, .nullOut) => (st, none, true)
      | (st, .thrown _) => (st, none, true)
    else (some t, some t, false)

/-! ## C4: refresh failure policy -/

/-- **C4.** For a session holding a refresh token: a provider rejection
with status 400 or 401 deletes the credential record and the error is
thrown (so `getUserTokens` hands the caller `null`, the unauthenticated
signal, with the record gone); any other HTTP error status and any
network error leave the record unchanged while still throwing, so a later
retry can succeed. -/
theorem refresh_failure_policy (t : Tokens) (rt : String) (now : Int)
    (h : t.refreshToken = some rt) :
    (∀ s : Nat, s = 400 ∨ s = 401 →
      refreshUserAccessToken (some t) now (.httpErr s) = (none, .thrown (some s)))
    ∧ (∀ s : Nat, s ≠ 400 → s ≠ 401 →
      refreshUserAccessToken (some t) now (.httpErr s) = (some t, .thrown (some s)))
    ∧ refreshUserAccessToken (some t) now .netErr = (some t, .thrown none)
    ∧ (∀ s : Nat, s = 400 ∨ s = 401 → t.expiresAt ≤ now + 60000 →
      getUserTokens (some t) now (.httpErr s) = (none, none, true)) := by
  refine ⟨?_, ?_, ?_, ?_⟩
  · intro s hs
    simp [refreshUserAccessToken, h, hs]
  · intro s h400 h401
    simp [refreshUserAccessToken, h, h400, h401]
  · simp [refreshUserAccessToken, h]
  · intro s hs hexp
    simp [getUserTokens, refreshUserAccessToken, h, hs, hexp]

/-- Witness for `refresh_failure_policy` at a concrete expired record:
status 400 wipes the record, status 503 and a network failure keep it. -/
theorem refresh_failure_policy_witness :
    refreshUserAccessToken
        (some ⟨"oldA", some "r1", 0, "sc"⟩) 1000000 (.httpErr 400)
      = (none, .thrown (some 400))
    ∧ refreshUserAccessToken
        (some ⟨"oldA", some "r1", 0, "sc"⟩) 1000000 (.httpErr 503)
      = (some ⟨"oldA", some "r1", 0, "sc"⟩, .thrown (some 503))
    ∧ refreshUserAccessToken
        (some ⟨"oldA", some "r1", 0, "sc"⟩) 1000000 .netErr
      = (some ⟨"oldA", some "r1", 0, "sc"⟩, .thrown none)
    ∧ getUserTokens (some ⟨"oldA", some "r1", 0, "sc"⟩) 1000000 (.httpErr 400)
      = (none, none, true) := by
  obtain ⟨h1, h2, h3, h4⟩ :=
    refresh_failure_policy ⟨"oldA", some "r1", 0, "sc"⟩ "r1" 1000000 rfl
  exact ⟨h1 400 (Or.inl rfl), h2 503 (by decide) (by decide), h3,
    h4 400 (Or.inl rfl) (by decide)⟩

/-! ## C5: expiry safety margin -/

/-- **C5.** If the stored record expires more than 60 seconds after the
current time, `getUserTokens` returns it unchanged without entering the
refresh path; and whenever it returns a token without having attempted a
refresh, that token's expiry is more than 60 seconds in the future. -/
theorem getUserTokens_margin (t : Tokens) (now : Int) (resp : ProviderResp) :
    (now + 60000 < t.expiresAt →
      getUserTokens (some t) now resp = (some t, some t, false))
    ∧ (∀ t' : Tokens,
      (getUserTokens (some t) now resp).2 = (some t', false) →
      t' = t ∧ now + 60000 < t'.expiresAt) := by
  constructor
  · intro hfresh
    simp [getUserTokens, not_le.mpr hfresh]
  · intro t' hret
    by_cases hexp : t.expiresAt ≤ now + 60000
    · exfalso
      simp only [getUserTokens, if_pos hexp] at hret
      rcases hr : refreshUserAccessToken (some t) now resp with ⟨st, out⟩
      rw [hr] at hret
      cases out <;> simp_all
    · simp only [getUserTokens, if_neg hexp] at hret
      obtain ⟨h1, -⟩ := Prod.mk.injEq .. ▸ hret
      cases h1
      exact ⟨rfl, not_le.mp hexp⟩

/-- Witness for `getUserTokens_margin`: a record expiring 61 seconds from
now is returned unchanged with no refresh attempt. -/
theorem getUserTokens_margin_witness :
    getUserTokens (some ⟨"a", some "r", 61001, "sc"⟩) 0 .netErr
      = (some ⟨"a", some "r", 61001, "sc"⟩, some ⟨"a", some "r", 61001, "sc"⟩, false)
    ∧ ((⟨"a", some "r", 61001, "sc"⟩ : Tokens) = ⟨"a", some "r", 61001, "sc"⟩
        ∧ (0 : Int) + 60000 < 61001) :=
  ⟨(getUserTokens_margin ⟨"a", some "r", 61001, "sc"⟩ 0 .netErr).1 (by decide),
   (getUserTokens_margin ⟨"a", some "r", 61001, "sc"⟩ 0 .netErr).2
     ⟨"a", some "r", 61001, "sc"⟩
     (by rw [(getUserTokens_margin ⟨"a", some "r", 61001, "sc"⟩ 0 .netErr).1 (by decide)])⟩

/-! ## C3: concurrent refreshes for one session

Two request handlers run `getUserTokens` on the same session object.
JavaScript's event loop lets each task run synchronously up to its first
`await`; inside `refreshUserAccessToken` the upstream refresh call is
issued at `fetch(...)` (src/core/spotify.js:123) and the task suspends.
The model below is a small-step system over the shared session state
(`tokens` plus a counter of upstream refresh calls issued); each task has
a program counter: it is either before its synchronous prefix, suspended
with a refresh request in flight (carrying the refresh token it read at
src/core/spotify.js:120), or finished. -/

structure SessState where
  tokens : Option Tokens
  refreshCount : Nat
deriving DecidableEq

inductive TaskPC
  | start
  | awaitingRefresh (capturedRefresh : String)
  | done (result : Option Tokens)
deriving DecidableEq

/-- One step of a task running `getUserTokens` (src/core/spotify.js:159-177)
with `refreshUserAccessToken` (112-157) inlined at its suspension point.
From `start` the task runs the expiry check; when the record is expired
and a refresh token exists it issues the upstream refresh call
(incrementing `refreshCount`) and suspends.  A suspended task resumes
with the provider's answer and finishes, writing the session accordingly. -/
def taskStep (now : Int) (resp : ProviderResp) (pc : TaskPC) (st : SessState) :
    TaskPC × SessState :=
  match pc with
  | .done r => (.done r, st)
  | .start =>
    match st.tokens with
    | none => (.done none, st)
    | some t =>
      if t.expiresAt ≤ now + 60000 then
        match t.refreshToken with
        | none => (.done none, { st with tokens := none })
        | some rt =>
          (.awaitingRefresh rt, { st with refreshCount := st.refreshCount + 1 })
      else (.done (some t), st)
  | .awaitingRefresh rt =>
    match resp with
    | .ok d =>
      let newTok := setUserTokens now
        { d with refresh_token := some (d.refresh_token.getD rt) }
      (.done (some newTok), { st with tokens := some newTok })
    | .httpErr s =>
      if s = 400 ∨ s = 401 then (.done none, { st with tokens := none })
      else (.done none, st)
    | .netErr => (.done none, st)

/-- Two tasks sharing one session; a schedule entry `false`/`true` says
which task takes the next step. -/
structure SysState where
  shared : SessState
  pc0 : TaskPC
  pc1 : TaskPC
deriving DecidableEq

def sysStep (now : Int) (resp : ProviderResp) (s : SysState) (i : Bool) :
    SysState :=
  if i then
    let (pc', sh') := taskStep now resp s.pc1 s.shared
    { s with pc1 := pc', shared := sh' }
  else
    let (pc', sh') := taskStep now resp s.pc0 s.shared
    { s with pc0 := pc', shared := sh' }

def runSchedule (now : Int) (resp : ProviderResp) (s : SysState)
    (sched : List Bool) : SysState :=
  sched.foldl (sysStep now resp) s

/-- **C3, counterexample.** Two concurrent `getUserTokens` calls on the
same expired session (expiry 0, now 1000000, both provider answers
successful) under the schedule in which each task runs its synchronous
prefix before either response arrives — which is exactly what the event
loop does when both requests arrive while the token is expired — issue
TWO upstream refresh calls, not one: there is no per-session
serialization anywhere in the code. -/
theorem concurrent_refresh_not_serialized :
    (runSchedule 1000000 (.ok ⟨"newA", none, 3600, "sc"⟩)
      ⟨⟨some ⟨"oldA", some "r1", 0, "sc"⟩, 0⟩, .start, .start⟩
      [false, true, false, true]).shared.refreshCount = 2 := by
  decide

/-- **C3, amended.** For every expired credential record holding a refresh
token, once both tasks have run their synchronous prefixes (schedule
`[false, true]`) each has already issued its own upstream refresh call:
the refresh counter increases by exactly two while both requests are
still in flight, i.e. a new refresh does start while one is in flight
for the same session key. -/
theorem concurrent_refresh_two_calls (t : Tokens) (rt : String) (now : Int)
    (resp : ProviderResp) (n₀ : Nat)
    (hrt : t.refreshToken = some rt) (hexp : t.expiresAt ≤ now + 60000) :
    (runSchedule now resp ⟨⟨some t, n₀⟩, .start, .start⟩
      [false, true]).shared.refreshCount = n₀ + 2
    ∧ (runSchedule now resp ⟨⟨some t, n₀⟩, .start, .start⟩
      [false, true]).pc0 = .awaitingRefresh rt
    ∧ (runSchedule now resp ⟨⟨some t, n₀⟩, .start, .start⟩
      [false, true]).pc1 = .awaitingRefresh rt := by
  simp [runSchedule, sysStep, taskStep, hrt, hexp]

/-- Witness for `concurrent_refresh_two_calls` at a concrete expired
session. -/
theorem concurrent_refresh_two_calls_witness :
    (runSchedule 1000000 .netErr
      ⟨⟨some ⟨"oldA", some "r1", 0, "sc"⟩, 5⟩, .start, .start⟩
      [false, true]).shared.refreshCount = 5 + 2
    ∧ (runSchedule 1000000 .netErr
      ⟨⟨some ⟨"oldA", some "r1", 0, "sc"⟩, 5⟩, .start, .start⟩
      [false, true]).pc0 = .awaitingRefresh "r1"
    ∧ (runSchedule 1000000 .netErr
      ⟨⟨some ⟨"oldA", some "r1", 0, "sc"⟩, 5⟩, .start, .start⟩
      [false, true]).pc1 = .awaitingRefresh "r1" :=
  concurrent_refresh_two_calls ⟨"oldA", some "r1", 0, "sc"⟩ "r1" 1000000
    .netErr 5 rfl (by decide)

/-! ## Read-through cache: `_getWithCache` (src/core/spotify.js:979-1004)

The whole body is one `try` block: read the key, return a parsed hit,
otherwise run the fetcher and write its result; the single `catch`
falls back to calling the fetcher once more and returning that call's
promise (so its rejection propagates).  The cache backend holds at most
one payload for the key under scrutiny; read and write failures are
modelled by flags, and the i-th invocation of the fetcher by a function
from the invocation index. -/

/-- A domain-level payload as the fetchers produce them; `success := false`
marks an explicit domain failure. -/
structure Payload where
  success : Bool
  payload : Nat
deriving DecidableEq

/-- Behaviour of the environment during one `_getWithCache` call. -/
structure CacheEnv where
  readFails : Bool
  writeFails : Bool
  fetch : Nat → Except String Payload

/-- Result of one `_getWithCache` call: the value returned (or the error
propagated), how many times the fetcher was invoked, and the backend's
content for the key afterwards. -/
structure CacheOutcome where
  result : Except String Payload
  fetchCalls : Nat
  finalStore : Option Payload

/-- `_getWithCache` (src/core/spotify.js:979-1004).  `store` is the
backend's content for the key before the call.  A failing read jumps to
the `catch`, which invokes the fetcher (first invocation) and returns its
outcome.  On a hit the value is returned with no fetch.  On a miss the
fetcher runs; if it throws, or if the subsequent write throws, the
`catch` invokes the fetcher a second time and returns that outcome;
otherwise the freshly computed value — whatever its `success` flag — is
written and returned. -/
def getWithCache (env : CacheEnv) (store : Option Payload) : CacheOutcome :=
  if env.readFails then
    { result := env.fetch 0, fetchCalls := 1, finalStore := store }
  else
    match store with
    | some v => { result := .ok v, fetchCalls := 0, finalStore := some v }
    | none =>
      match env.fetch 0 with
      | .ok fresh =>
        if env.writeFails then
          { result := env.fetch 1, fetchCalls := 2, finalStore := none }
        else
          { result := .ok fresh, fetchCalls := 1, finalStore := some fresh }
      | .error _ =>
        { result := env.fetch 1, fetchCalls := 2, finalStore := none }

/-- **C1, counterexample.** A miss-then-failure cycle DOES persist the
failure payload: with a healthy backend and a fetcher returning
`{success: false, ...}`, `_getWithCache` writes that value to the
backend — the code has no `success:false` filter before `redis.set`. -/
theorem cache_persists_failure_payload :
    (getWithCache ⟨false, false, fun _ => .ok ⟨false, 7⟩⟩ none).finalStore
      = some ⟨false, 7⟩ ∧ (⟨false, 7⟩ : Payload).success = false := by
  constructor <;> rfl

/-- **C1, amended.** On a miss with a healthy backend, `_getWithCache`
persists whatever value the compute function returns — including a
payload flagged `success := false`; the write is skipped only when the
compute function throws (every fetcher in the repository signals domain
failure by throwing), in which case the backend stays empty for the key. -/
theorem cache_write_policy (env : CacheEnv) (hread : env.readFails = false) :
    (∀ v : Payload, env.fetch 0 = .ok v → env.writeFails = false →
      (getWithCache env none).finalStore = some v)
    ∧ (∀ e : String, env.fetch 0 = .error e →
      (getWithCache env none).finalStore = none) := by
  constructor
  · intro v hv hw
    simp [getWithCache, hread, hv, hw]
  · intro e he
    simp [getWithCache, hread, he]

/-- Witness for `cache_write_policy`: a returned `success := false`
payload is written; a throwing fetcher leaves the key empty. -/
theorem cache_write_policy_witness :
    (getWithCache ⟨false, false, fun _ => .ok ⟨false, 9⟩⟩ none).finalStore
      = some ⟨false, 9⟩
    ∧ (getWithCache ⟨false, false, fun _ => .error "boom"⟩ none).finalStore
      = none :=
  ⟨(cache_write_policy ⟨false, false, fun _ => .ok ⟨false, 9⟩⟩ rfl).1
      ⟨false, 9⟩ rfl rfl,
   (cache_write_policy ⟨false, false, fun _ => .error "boom"⟩ rfl).2
      "boom" rfl⟩

/-- **C10.** Within one `_getWithCache` call with a healthy read: if the
compute function throws, or the cache write after it throws, the compute
function is invoked a second time and that second invocation's outcome is
returned — in particular an error thrown by the second invocation
propagates to the caller. -/
theorem cache_retries_fetcher_once (env : CacheEnv)
    (hread : env.readFails = false) :
    (∀ e : String, env.fetch 0 = .error e →
      (getWithCache env none).fetchCalls = 2
      ∧ (getWithCache env none).result = env.fetch 1)
    ∧ (∀ v : Payload, env.fetch 0 = .ok v → env.writeFails = true →
      (getWithCache env none).fetchCalls = 2
      ∧ (getWithCache env none).result = env.fetch 1) := by
  constructor
  · intro e he
    constructor <;> simp [getWithCache, hread, he]
  · intro v hv hw
    constructor <;> simp [getWithCache, hread, hv, hw]

/-- Witness for `cache_retries_fetcher_once`: a fetcher that throws on
its first invocation and throws differently on the second makes
`_getWithCache` call it twice and surface the second error. -/
theorem cache_retries_fetcher_once_witness :
    (getWithCache
      ⟨false, false, fun i => .error (if i = 0 then "e0" else "e1")⟩
      none).fetchCalls = 2
    ∧ (getWithCache
      ⟨false, false, fun i => .error (if i = 0 then "e0" else "e1")⟩
      none).result = .error "e1" := by
  obtain ⟨h1, h2⟩ :=
    (cache_retries_fetcher_once
      ⟨false, false, fun i => .error (if i = 0 then "e0" else "e1")⟩ rfl).1
      "e0" rfl
  exact ⟨h1, by rw [h2]; rfl⟩

/-! ## Search aggregator: `searchMultiType` (src/core/spotify.js:358-572)

String helpers.  The JavaScript string operations used by the search code
(`toLowerCase`, `trim`, `split(' ')`, `startsWith`, `includes`) are
modelled on the underlying character lists with structural recursion. -/

/-- `pat` occurs as a contiguous run inside `s` (JS `s.includes(pat)`). -/
def listContainsSeq (pat : List Char) : List Char → Bool
  | [] => pat.isEmpty
  | c :: cs => pat.isPrefixOf (c :: cs) || listContainsSeq pat cs

/-- JS `toLowerCase` (the code only ever feeds it catalog names and
queries; basic-latin lowering). -/
def jsToLower (l : List Char) : List Char := l.map Char.toLower

def isWsChar (c : Char) : Bool :=
  c = ' ' || c = '\t' || c = '\n' || c = '\r'

/-- JS `trim`: strip whitespace from both ends. -/
def jsTrim (l : List Char) : List Char :=
  ((l.dropWhile isWsChar).reverse.dropWhile isWsChar).reverse

/-- JS `split(' ')`: split at every single space character, keeping empty
pieces (`"a  b".split(' ') = ["a","","b"]`, `"".split(' ') = [""]`). -/
def splitOnSpace : List Char → List (List Char)
  | [] => [[]]
  | c :: cs =>
    if c = ' ' then [] :: splitOnSpace cs
    else
      match splitOnSpace cs with
      | [] => [[c]]
      | w :: ws => (c :: w) :: ws

/-- `searchLimit` (src/core/spotify.js:360): the per-category limit sent
in the one combined catalog query, `Math.min(limit, 50)`. -/
def searchLimit (limit : Nat) : Nat := min limit 50

/-- The fixed per-category bonus of `calculateRelevance`
(src/core/spotify.js:407-411). -/
def typeBonus (ty : String) : Nat :=
  if ty = "track" then 5
  else if ty = "artist" then 3
  else if ty = "album" then 2
  else if ty = "playlist" then 1
  else 0

/-- `calculateRelevance` (src/core/spotify.js:377-414), the closure inside
`searchMultiType`; `queryLower = query.toLowerCase().trim()` is computed
at src/core/spotify.js:368.  Base score 1000/100/50 for exact /
starts-with / contains, then the nested word loop (+25 for an equal word
pair, +10 for a one-way substring pair), then the type bonus. -/
def calculateRelevance (query name ty : String) : Nat :=
  let queryLower := jsTrim (jsToLower query.toList)
  let nameLower := jsToLower name.toList
  let score0 : Nat :=
    if nameLower = queryLower then 1000
    else if queryLower.isPrefixOf nameLower then 100
    else if listContainsSeq queryLower nameLower then 50
    else 0
  let queryWords := (splitOnSpace queryLower).filter (fun w => w.length > 0)
  let nameWords := (splitOnSpace nameLower).filter (fun w => w.length > 0)
  let score1 := queryWords.foldl (fun s qw =>
    nameWords.foldl (fun s2 nw =>
      if nw = qw then s2 + 25
      else if listContainsSeq qw nw || listContainsSeq nw qw then s2 + 10
      else s2) s) score0
  score1 + typeBonus ty

/-- Modelled from the spec's wording of step 3 of §4.4: points awarded to
one (query word, name word) pair — 25 if they are exactly equal, else 10
if one is a substring of the other, else 0. -/
def wordPairPoints (qw nw : List Char) : Nat :=
  if nw = qw then 25
  else if listContainsSeq qw nw || listContainsSeq nw qw then 10
  else 0

/-- The relevance formula as the spec states it: +1000 exact
case-insensitive match, else +100 prefix, else +50 substring; plus the
word-pair points summed over all word pairs; plus the per-category bonus. -/
def relevanceSpec (query name ty : String) : Nat :=
  let queryLower := jsTrim (jsToLower query.toList)
  let nameLower := jsToLower name.toList
  let base : Nat :=
    if nameLower = queryLower then 1000
    else if queryLower.isPrefixOf nameLower then 100
    else if listContainsSeq queryLower nameLower then 50
    else 0
  let queryWords := (splitOnSpace queryLower).filter (fun w => w.length > 0)
  let nameWords := (splitOnSpace nameLower).filter (fun w => w.length > 0)
  base + ((queryWords ×ˢ nameWords).map (fun p => wordPairPoints p.1 p.2)).sum
    + typeBonus ty

/-- A fold accumulating `+ f x` is the accumulator plus the sum of `f`. -/
theorem foldl_add_eq_add_sum {α : Type} (f : α → Nat) :
    ∀ (l : List α) (s : Nat),
      l.foldl (fun acc x => acc + f x) s = s + (l.map f).sum := by
  intro l
  induction l with
  | nil => simp
  | cons x xs ih =>
    intro s
    simp [List.foldl_cons, ih, Nat.add_assoc]

/-- Summing over the pair list `Q ×ˢ N` equals the nested sum. -/
theorem sum_product_eq_nested {α β : Type} (f : α → β → Nat) (N : List β) :
    ∀ Q : List α,
      ((Q ×ˢ N).map (fun p => f p.1 p.2)).sum
        = (Q.map (fun qw => (N.map (f qw)).sum)).sum := by
  intro Q
  induction Q with
  | nil => simp [List.nil_product]
  | cons q Qs ih =>
    simp only [List.product_cons, List.map_append, List.sum_append, ih,
      List.map_map, List.map_cons, List.sum_cons]
    rfl

/-- The inner word loop of `calculateRelevance` accumulates exactly the
per-pair points of `wordPairPoints`. -/
theorem inner_fold_eq (qw : List Char) : ∀ (l : List (List Char)) (s : Nat),
    l.foldl (fun s2 nw =>
      if nw = qw then s2 + 25
      else if listContainsSeq qw nw || listContainsSeq nw qw then s2 + 10
      else s2) s
    = s + (l.map (wordPairPoints qw)).sum := by
  intro l
  induction l with
  | nil => simp
  | cons x xs ih =>
    intro s
    simp only [List.foldl_cons, List.map_cons, List.sum_cons, ih]
    by_cases h1 : x = qw
    · simp [wordPairPoints, h1, Nat.add_assoc]
    · by_cases h2 : listContainsSeq qw x || listContainsSeq x qw
      · simp [wordPairPoints, h1, h2, Nat.add_assoc]
      · simp [wordPairPoints, h1, h2]

/-! ### C7: the relevance formula -/

/-- **C7.** `calculateRelevance` computes exactly the spec's formula
(base 1000/100/50, word-pair points summed over all pairs, per-category
bonus), and on query `"love"` the exact match `"Love"` scores strictly
above the prefix/substring matches `"Lovely"` and `"I Love You"`, which
score strictly above an unrelated name. -/
theorem calculateRelevance_matches_spec :
    (∀ query name ty : String,
      calculateRelevance query name ty = relevanceSpec query name ty)
    ∧ calculateRelevance "love" "I Love You" "track"
        < calculateRelevance "love" "Love" "track"
    ∧ calculateRelevance "love" "Lovely" "track"
        < calculateRelevance "love" "Love" "track"
    ∧ calculateRelevance "love" "Bohemian" "track"
        < calculateRelevance "love" "I Love You" "track"
    ∧ calculateRelevance "love" "Bohemian" "track"
        < calculateRelevance "love" "Lovely" "track" := by
  refine ⟨?_, by decide, by decide, by decide, by decide⟩
  intro query name ty
  simp only [calculateRelevance, relevanceSpec]
  rw [sum_product_eq_nested]
  congr 1
  simp only [inner_fold_eq]
  exact foldl_add_eq_add_sum _ _ _

/-! ### C2: the per-category fetch limit -/

/-- **C2, counterexample.** The fetch limit sent upstream is
`Math.min(limit, 50)` (src/core/spotify.js:360): it is NOT independent of
the caller's `limit` — a caller asking for 10 results causes a fetch
limit of 10, not 50. -/
theorem searchLimit_depends_on_limit :
    searchLimit 10 = 10 ∧ searchLimit 60 = 50
    ∧ searchLimit 10 ≠ searchLimit 60 := by
  refine ⟨rfl, rfl, by decide⟩

/-- **C2, amended.** The per-category fetch limit of the single combined
catalog query is `min(limit, 50)`: it never exceeds the provider maximum
of 50, equals the caller's `limit` whenever that is at most 50, and is
pinned to 50 above that — so it does depend on the caller's final
`limit`. -/
theorem searchLimit_capped (limit : Nat) :
    searchLimit limit ≤ 50
    ∧ (limit ≤ 50 → searchLimit limit = limit)
    ∧ (50 ≤ limit → searchLimit limit = 50) := by
  refine ⟨Nat.min_le_right _ _, fun h => Nat.min_eq_left h, fun h => ?_⟩
  simpa [searchLimit] using Nat.min_eq_right h

/-- Witness for `searchLimit_capped` at limits 10 and 80. -/
theorem searchLimit_capped_witness :
    searchLimit 10 ≤ 50 ∧ searchLimit 10 = 10 ∧ searchLimit 80 = 50 :=
  ⟨(searchLimit_capped 10).1, (searchLimit_capped 10).2.1 (by decide),
   (searchLimit_capped 80).2.2 (by decide)⟩

/-! ### C6: track deduplication

Raw track hits as consumed by `searchMultiType`
(`data.tracks.items`): name, artist names, `duration_ms`, `popularity`,
id. -/

structure RawTrack where
  name : String
  artists : List String
  duration_ms : Int
  popularity : Int
  id : String
deriving DecidableEq

/-- Grouping key (src/core/spotify.js:421):
`` `${track.name.toLowerCase()}|${track.artists[0]?.name.toLowerCase() || ''}` ``. -/
def trackKey (t : RawTrack) : List Char :=
  jsToLower t.name.toList ++ '|' :: jsToLower (t.artists.headD "").toList

/-- Append `t` to the group for `k`, or open a new group at the end —
the iteration order of a JS `Map` is key-insertion order. -/
def insertGrouped (k : List Char) (t : RawTrack) :
    List (List Char × List RawTrack) → List (List Char × List RawTrack)
  | [] => [(k, [t])]
  | (k', g) :: rest =>
    if k' = k then (k', g ++ [t]) :: rest
    else (k', g) :: insertGrouped k t rest

/-- The grouping loop of src/core/spotify.js:418-427. -/
def groupTracks (items : List RawTrack) : List (List Char × List RawTrack) :=
  items.foldl (fun acc t => insertGrouped (trackKey t) t acc) []

/-- One step of the `reduce` at src/core/spotify.js:434-441: keep
`current` when it is strictly more popular, or equally popular and
strictly closer to the canonical 210000 ms duration. -/
def bestStep (prev current : RawTrack) : RawTrack :=
  if current.popularity > prev.popularity then current
  else if current.popularity = prev.popularity
      ∧ (current.duration_ms - 210000).natAbs < (prev.duration_ms - 210000).natAbs
    then current
  else prev

/-- `trackGroup.reduce(...)` (src/core/spotify.js:429-442): the accumulator
starts at the first element; for a one-element group the representative
is that element, as in the code's `trackGroup[0]` shortcut. -/
def selectBestTrack (t : RawTrack) (ts : List RawTrack) : RawTrack :=
  ts.foldl bestStep t

/-- Distance of a hit's duration from the canonical 210000 ms. -/
def durDist (t : RawTrack) : Nat := (t.duration_ms - 210000).natAbs

/-- Fold invariant for `bestStep`: the result is drawn from the inputs,
carries the maximum popularity, and among maximal-popularity inputs has
minimal distance to 210000 ms. -/
theorem selectBestTrack_invariant : ∀ (ts : List RawTrack) (acc : RawTrack),
    (selectBestTrack acc ts = acc ∨ selectBestTrack acc ts ∈ ts)
    ∧ acc.popularity ≤ (selectBestTrack acc ts).popularity
    ∧ (∀ t ∈ ts, t.popularity ≤ (selectBestTrack acc ts).popularity)
    ∧ (acc.popularity = (selectBestTrack acc ts).popularity →
        durDist (selectBestTrack acc ts) ≤ durDist acc)
    ∧ (∀ t ∈ ts, t.popularity = (selectBestTrack acc ts).popularity →
        durDist (selectBestTrack acc ts) ≤ durDist t) := by
  intro ts
  induction ts with
  | nil => exact fun acc => ⟨Or.inl rfl, le_refl _, by simp, fun _ => le_refl _, by simp⟩
  | cons t0 ts ih =>
    intro acc
    have hstep : selectBestTrack acc (t0 :: ts) = selectBestTrack (bestStep acc t0) ts := rfl
    obtain ⟨hmem, hacc, hall, hdacc, hdall⟩ := ih (bestStep acc t0)
    have hcases : bestStep acc t0 = acc ∨ bestStep acc t0 = t0 := by
      unfold bestStep
      split
      · exact Or.inr rfl
      · split
        · exact Or.inr rfl
        · exact Or.inl rfl
    have hge_acc : acc.popularity ≤ (bestStep acc t0).popularity := by
      unfold bestStep
      split
      · omega
      · split
        · omega
        · exact le_refl _
    have hge_t0 : t0.popularity ≤ (bestStep acc t0).popularity := by
      unfold bestStep
      split
      · exact le_refl _
      · split
        · exact le_refl _
        · omega
    have hd_acc : acc.popularity = (bestStep acc t0).popularity →
        durDist (bestStep acc t0) ≤ durDist acc := by
      unfold bestStep durDist
      split
      · omega
      · split
        · omega
        · exact fun _ => le_refl _
    have hd_t0 : t0.popularity = (bestStep acc t0).popularity →
        durDist (bestStep acc t0) ≤ durDist t0 := by
      unfold bestStep durDist
      split
      · exact fun _ => le_refl _
      · split
        · exact fun _ => le_refl _
        · omega
    rw [hstep]
    refine ⟨?_, le_trans hge_acc hacc, ?_, ?_, ?_⟩
    · rcases hmem with h | h
      · rcases hcases with hc | hc
        · exact Or.inl (h.trans hc)
        · refine Or.inr ?_
          rw [h, hc]
          exact List.mem_cons_self _ _
      · exact Or.inr (List.mem_cons_of_mem _ h)
    · intro t ht
      rcases List.mem_cons.mp ht with h | h
      · rw [h]
        exact le_trans hge_t0 hacc
      · exact hall t h
    · intro hpop
      have e1 : (bestStep acc t0).popularity
          = (selectBestTrack (bestStep acc t0) ts).popularity := by omega
      have e2 : acc.popularity = (bestStep acc t0).popularity := by omega
      exact le_trans (hdacc e1) (hd_acc e2)
    · intro t ht hpop
      rcases List.mem_cons.mp ht with h | h
      · subst h
        have e1 : (bestStep acc t).popularity
            = (selectBestTrack (bestStep acc t) ts).popularity := by omega
        have e2 : t.popularity = (bestStep acc t).popularity := by omega
        exact le_trans (hdacc e1) (hd_t0 e2)
      · exact hdall t h hpop

/-- Fixture: two raw hits named "Hello" by "Adele", durations 295000 ms /
200000 ms, popularities 80 / 95. -/
def helloA : RawTrack := ⟨"Hello", ["Adele"], 295000, 80, "id1"⟩

def helloB : RawTrack := ⟨"Hello", ["Adele"], 200000, 95, "id2"⟩

/-- **C6.** Within a group of size > 1 the `reduce` of
src/core/spotify.js:429-442 picks a member of the group carrying the
maximum popularity, and among the maximally popular hits one whose
duration is closest to 210000 ms; in particular the two "Hello" /
"Adele" hits fall into one group and collapse to the popularity-95 hit. -/
theorem track_dedup_selection (t : RawTrack) (ts : List RawTrack)
    (hlen : 1 < (t :: ts).length) :
    selectBestTrack t ts ∈ t :: ts
    ∧ (∀ x ∈ t :: ts, x.popularity ≤ (selectBestTrack t ts).popularity)
    ∧ (∀ x ∈ t :: ts, x.popularity = (selectBestTrack t ts).popularity →
        durDist (selectBestTrack t ts) ≤ durDist x)
    ∧ groupTracks [helloA, helloB] = [(trackKey helloA, [helloA, helloB])]
    ∧ selectBestTrack helloA [helloB] = helloB
    ∧ helloB.popularity = 95 := by
  obtain ⟨hmem, hacc, hall, hdacc, hdall⟩ := selectBestTrack_invariant ts t
  refine ⟨?_, ?_, ?_, by decide, by decide, rfl⟩
  · rcases hmem with h | h
    · rw [h]
      exact List.mem_cons_self _ _
    · exact List.mem_cons_of_mem _ h
  · intro x hx
    rcases List.mem_cons.mp hx with h | h
    · rw [h]
      exact hacc
    · exact hall x h
  · intro x hx hpop
    rcases List.mem_cons.mp hx with h | h
    · subst h
      exact hdacc hpop
    · exact hdall x h hpop

/-- Witness for `track_dedup_selection` on the "Hello"/"Adele" group. -/
theorem track_dedup_selection_witness :
    1 < ([helloA, helloB] : List RawTrack).length
    ∧ selectBestTrack helloA [helloB] ∈ [helloA, helloB]
    ∧ (∀ x ∈ [helloA, helloB],
        x.popularity ≤ (selectBestTrack helloA [helloB]).popularity) :=
  ⟨by decide, (track_dedup_selection helloA [helloB] (by decide)).1,
    (track_dedup_selection helloA [helloB] (by decide)).2.1⟩

/-! ### C8: category processing, interleaving and the final ranking

The remaining raw shapes consumed by `searchMultiType`
(`data.artists.items`, `data.albums.items`, `data.playlists.items`). -/

structure RawArtist where
  name : String
  followers : Int
  popularity : Int
  id : String
deriving DecidableEq

structure RawAlbum where
  name : String
  artists : List String
  id : String
deriving DecidableEq

structure RawPlaylist where
  name : String
  description : Option String
  id : String
deriving DecidableEq

inductive RType
  | track | artist | album | playlist
deriving DecidableEq

/-- The fields of a pushed result record that the sorting, interleaving
and truncation code inspects: its `type` tag, name, `relevance`, and —
present only where the code sets them — `popularity` (tracks, artists),
`followers` (artists) and `duration` (tracks).  `none` models an absent
(`undefined`) field. -/
structure ResultItem where
  rtype : RType
  name : String
  relevance : ℚ
  popularity : Option Int
  followers : Option Int
  duration : Option Int
deriving DecidableEq

/-- Track processing (src/core/spotify.js:417-459): deduplicate via
`groupTracks`/`selectBestTrack`, then push a record whose relevance is
`calculateRelevance(name,'track') + calculateRelevance(firstArtist,'artist') * 0.5`. -/
def processTracks (query : String) (items : List RawTrack) : List ResultItem :=
  (groupTracks items).filterMap fun kg =>
    match kg.2 with
    | [] => none
    | t :: ts =>
      let best := selectBestTrack t ts
      some { rtype := .track
             name := best.name
             relevance := (calculateRelevance query best.name "track" : ℚ)
               + (calculateRelevance query (best.artists.headD "") "artist" : ℚ) * (1 / 2)
             popularity := some best.popularity
             followers := none
             duration := some best.duration_ms }

/-- Artist processing (src/core/spotify.js:462-477). -/
def processArtists (query : String) (items : List RawArtist) : List ResultItem :=
  items.map fun a =>
    { rtype := .artist
      name := a.name
      relevance := (calculateRelevance query a.name "artist" : ℚ)
      popularity := some a.popularity
      followers := some a.followers
      duration := none }

/-- Album processing (src/core/spotify.js:480-496): relevance adds
`0.3 ×` the formula on the first artist name. -/
def processAlbums (query : String) (items : List RawAlbum) : List ResultItem :=
  items.map fun al =>
    { rtype := .album
      name := al.name
      relevance := (calculateRelevance query al.name "album" : ℚ)
        + (calculateRelevance query (al.artists.headD "") "artist" : ℚ) * (3 / 10)
      popularity := none
      followers := none
      duration := none }

/-- Playlist processing (src/core/spotify.js:499-515): relevance adds
`0.2 ×` the formula on the description. -/
def processPlaylists (query : String) (items : List RawPlaylist) : List ResultItem :=
  items.map fun pl =>
    { rtype := .playlist
      name := pl.name
      relevance := (calculateRelevance query pl.name "playlist" : ℚ)
        + (calculateRelevance query (pl.description.getD "") "playlist" : ℚ) * (1 / 5)
      popularity := none
      followers := none
      duration := none }

/-- The per-category comparator (src/core/spotify.js:518-534): relevance
first, then popularity when both carry one, then followers, else equal. -/
def catCmp (a b : ResultItem) : ℚ :=
  if b.relevance ≠ a.relevance then b.relevance - a.relevance
  else
    match a.popularity, b.popularity with
    | some pa, some pb => (pb : ℚ) - pa
    | _, _ =>
      match a.followers, b.followers with
      | some fa, some fb => (fb : ℚ) - fa
      | _, _ => 0

def catLe (a b : ResultItem) : Bool := decide (catCmp a b ≤ 0)

/-- `results[key].sort(...)` per category.  ES2019+ `Array.prototype.sort`
is a stable comparison sort; `mergeSort` is its model. -/
def sortCat (l : List ResultItem) : List ResultItem := l.mergeSort catLe

/-- The final comparator (src/core/spotify.js:550):
`(a, b) => b.relevance - a.relevance`. -/
def finalLe (a b : ResultItem) : Bool := decide (b.relevance ≤ a.relevance)

/-- `results.tracks[i]` as pushed by the interleaving loop: one element
when the index is populated, nothing otherwise. -/
def pick (l : List ResultItem) (i : Nat) : List ResultItem :=
  match l.get? i with
  | some x => [x]
  | none => []

/-- `Math.ceil(limit / 4)` (src/core/spotify.js:540). -/
def maxPerCategory (limit : Nat) : Nat := (limit + 3) / 4

/-- The interleaving loop (src/core/spotify.js:542-547): for
`i = 0 .. maxPerCategory - 1` push the i-th track, artist, album and
playlist result when present. -/
def roundRobin (n : Nat) (trs arts albs pls : List ResultItem) :
    List ResultItem :=
  (List.range n).foldl
    (fun acc i => acc ++ (pick trs i ++ pick arts i ++ pick albs i ++ pick pls i))
    []

/-- The raw combined-search response body: the four optional category
collections (a category absent from the provider response is `none`). -/
structure SearchData where
  tracks : Option (List RawTrack)
  artists : Option (List RawArtist)
  albums : Option (List RawAlbum)
  playlists : Option (List RawPlaylist)

/-- What `searchMultiType` returns on success: the truncated combined
list plus the full per-category lists (`by_type`). -/
structure SearchOutput where
  results : List ResultItem
  tracks : List ResultItem
  artists : List ResultItem
  albums : List ResultItem
  playlists : List ResultItem

/-- The pure core of `searchMultiType` (src/core/spotify.js:367-562)
after the HTTP response `data` arrives: process each present category,
sort each category with `catCmp`, interleave up to `ceil(limit/4)` per
category in track/artist/album/playlist order, re-sort the combined list
by descending relevance, and truncate to `limit`. -/
def searchCore (query : String) (limit : Nat) (data : SearchData) :
    SearchOutput :=
  let trs := sortCat (processTracks query (data.tracks.getD []))
  let arts := sortCat (processArtists query (data.artists.getD []))
  let albs := sortCat (processAlbums query (data.albums.getD []))
  let pls := sortCat (processPlaylists query (data.playlists.getD []))
  let allResults := roundRobin (maxPerCategory limit) trs arts albs pls
  { results := (allResults.mergeSort finalLe).take limit
    tracks := trs
    artists := arts
    albums := albs
    playlists := pls }

/-- Every record pushed by the track loop is tagged `track`. -/
theorem mem_processTracks_rtype (query : String) (items : List RawTrack) :
    ∀ x ∈ processTracks query items, x.rtype = RType.track := by
  intro x hx
  simp only [processTracks, List.mem_filterMap] at hx
  obtain ⟨⟨k, g⟩, -, hkg⟩ := hx
  cases g with
  | nil => exact absurd hkg (by simp)
  | cons t ts =>
    simp only [Option.some.injEq] at hkg
    rw [← hkg]

/-- Every record pushed by the artist loop is tagged `artist`. -/
theorem mem_processArtists_rtype (query : String) (items : List RawArtist) :
    ∀ x ∈ processArtists query items, x.rtype = RType.artist := by
  intro x hx
  simp only [processArtists, List.mem_map] at hx
  obtain ⟨a, -, ha⟩ := hx
  rw [← ha]

/-- Every record pushed by the album loop is tagged `album`. -/
theorem mem_processAlbums_rtype (query : String) (items : List RawAlbum) :
    ∀ x ∈ processAlbums query items, x.rtype = RType.album := by
  intro x hx
  simp only [processAlbums, List.mem_map] at hx
  obtain ⟨a, -, ha⟩ := hx
  rw [← ha]

/-- Every record pushed by the playlist loop is tagged `playlist`. -/
theorem mem_processPlaylists_rtype (query : String) (items : List RawPlaylist) :
    ∀ x ∈ processPlaylists query items, x.rtype = RType.playlist := by
  intro x hx
  simp only [processPlaylists, List.mem_map] at hx
  obtain ⟨a, -, ha⟩ := hx
  rw [← ha]

/-- Unrolling one round of the interleaving loop. -/
theorem roundRobin_succ (n : Nat) (trs arts albs pls : List ResultItem) :
    roundRobin (n + 1) trs arts albs pls
      = roundRobin n trs arts albs pls
        ++ (pick trs n ++ pick arts n ++ pick albs n ++ pick pls n) := by
  unfold roundRobin
  rw [List.range_succ, List.foldl_append]
  rfl

/-- `pick` produces at most one matching element. -/
theorem countP_pick_le_one (p : ResultItem → Bool) (l : List ResultItem)
    (i : Nat) : (pick l i).countP p ≤ 1 := by
  unfold pick
  cases h : l.get? i with
  | none => simp
  | some x => simp [List.countP_cons]; split <;> simp

/-- `pick` from a list with no matching element produces none. -/
theorem countP_pick_eq_zero (p : ResultItem → Bool) (l : List ResultItem)
    (i : Nat) (h : ∀ x ∈ l, p x = false) : (pick l i).countP p = 0 := by
  unfold pick
  cases hg : l.get? i with
  | none => simp
  | some x =>
    have := h x (List.get?_mem hg)
    simp [List.countP_cons, this]

/-- The interleaving loop draws at most `b₁ + b₂ + b₃ + b₄` matching
elements per round. -/
theorem countP_roundRobin_le (p : ResultItem → Bool)
    (trs arts albs pls : List ResultItem) (b₁ b₂ b₃ b₄ : Nat)
    (h₁ : ∀ i, (pick trs i).countP p ≤ b₁)
    (h₂ : ∀ i, (pick arts i).countP p ≤ b₂)
    (h₃ : ∀ i, (pick albs i).countP p ≤ b₃)
    (h₄ : ∀ i, (pick pls i).countP p ≤ b₄) :
    ∀ n, (roundRobin n trs arts albs pls).countP p ≤ n * (b₁ + b₂ + b₃ + b₄) := by
  intro n
  induction n with
  | zero => simp [roundRobin]
  | succ n ih =>
    rw [roundRobin_succ]
    simp only [List.countP_append]
    have := h₁ n
    have := h₂ n
    have := h₃ n
    have := h₄ n
    have hn : (n + 1) * (b₁ + b₂ + b₃ + b₄)
        = n * (b₁ + b₂ + b₃ + b₄) + (b₁ + b₂ + b₃ + b₄) := by ring
    omega

/-- `finalLe` is transitive. -/
theorem finalLe_trans (a b c : ResultItem) :
    finalLe a b → finalLe b c → finalLe a c := by
  simp only [finalLe, decide_eq_true_eq]
  exact fun h1 h2 => le_trans h2 h1

/-- `finalLe` is total. -/
theorem finalLe_total (a b : ResultItem) : finalLe a b || finalLe b a := by
  simp only [finalLe, Bool.or_eq_true, decide_eq_true_eq]
  exact (le_total b.relevance a.relevance).imp id id

/-- The combined list produced by `searchCore`, unfolded. -/
theorem searchCore_results (query : String) (lim : Nat) (data : SearchData) :
    (searchCore query lim data).results
      = ((roundRobin (maxPerCategory lim)
          (sortCat (processTracks query (data.tracks.getD [])))
          (sortCat (processArtists query (data.artists.getD [])))
          (sortCat (processAlbums query (data.albums.getD [])))
          (sortCat (processPlaylists query (data.playlists.getD [])))).mergeSort
            finalLe).take lim := rfl

/-- With each input list uniformly tagged with its own category, the
interleaving loop contributes at most `n` elements of any one category. -/
theorem countP_roundRobin_typed (c : RType) (n : Nat)
    (trs arts albs pls : List ResultItem)
    (ht : ∀ x ∈ trs, x.rtype = RType.track)
    (ha : ∀ x ∈ arts, x.rtype = RType.artist)
    (hb : ∀ x ∈ albs, x.rtype = RType.album)
    (hp : ∀ x ∈ pls, x.rtype = RType.playlist) :
    (roundRobin n trs arts albs pls).countP (fun x => decide (x.rtype = c))
      ≤ n := by
  have key : ∀ (l : List ResultItem) (r : RType), (∀ x ∈ l, x.rtype = r) →
      r ≠ c → ∀ i,
      (pick l i).countP (fun x => decide (x.rtype = c)) ≤ 0 := by
    intro l r hl hne i
    exact le_of_eq (countP_pick_eq_zero _ l i (fun x hx => by simp [hl x hx, hne]))
  cases c with
  | track =>
    have h := countP_roundRobin_le (fun x => decide (x.rtype = RType.track))
      trs arts albs pls 1 0 0 0
      (countP_pick_le_one _ trs)
      (key arts _ ha (by decide))
      (key albs _ hb (by decide))
      (key pls _ hp (by decide)) n
    simpa using h
  | artist =>
    have h := countP_roundRobin_le (fun x => decide (x.rtype = RType.artist))
      trs arts albs pls 0 1 0 0
      (key trs _ ht (by decide))
      (countP_pick_le_one _ arts)
      (key albs _ hb (by decide))
      (key pls _ hp (by decide)) n
    simpa using h
  | album =>
    have h := countP_roundRobin_le (fun x => decide (x.rtype = RType.album))
      trs arts albs pls 0 0 1 0
      (key trs _ ht (by decide))
      (key arts _ ha (by decide))
      (countP_pick_le_one _ albs)
      (key pls _ hp (by decide)) n
    simpa using h
  | playlist =>
    have h := countP_roundRobin_le (fun x => decide (x.rtype = RType.playlist))
      trs arts albs pls 0 0 0 1
      (key trs _ ht (by decide))
      (key arts _ ha (by decide))
      (key albs _ hb (by decide))
      (countP_pick_le_one _ pls) n
    simpa using h

/-- **C8.** For every query, limit and response, the combined list built
by the interleaving loop, final re-sort, and `slice(0, limit)` has at
most `limit` elements, is sorted by descending relevance, and contains at
most `ceil(limit/4)` items of each category. -/
theorem searchMultiType_assembly (query : String) (lim : Nat)
    (data : SearchData) :
    (searchCore query lim data).results.length ≤ lim
    ∧ List.Sorted (fun a b : ResultItem => b.relevance ≤ a.relevance)
        (searchCore query lim data).results
    ∧ (∀ c : RType, (searchCore query lim data).results.countP
        (fun x => decide (x.rtype = c)) ≤ maxPerCategory lim) := by
  refine ⟨?_, ?_, ?_⟩
  · rw [searchCore_results, List.length_take]
    exact Nat.min_le_left _ _
  · rw [searchCore_results]
    have hs := List.sorted_mergeSort finalLe_trans finalLe_total
      (roundRobin (maxPerCategory lim)
        (sortCat (processTracks query (data.tracks.getD [])))
        (sortCat (processArtists query (data.artists.getD [])))
        (sortCat (processAlbums query (data.albums.getD [])))
        (sortCat (processPlaylists query (data.playlists.getD []))))
    have hp := List.Pairwise.sublist (List.take_sublist lim _) hs
    exact hp.imp (fun h => by simpa [finalLe] using h)
  · intro c
    rw [searchCore_results]
    refine le_trans ((List.take_sublist _ _).countP_le _) ?_
    rw [(List.mergeSort_perm _ finalLe).countP_eq]
    exact countP_roundRobin_typed c (maxPerCategory lim) _ _ _ _
      (fun x hx => mem_processTracks_rtype query _ x
        (by simpa [sortCat, List.mem_mergeSort] using hx))
      (fun x hx => mem_processArtists_rtype query _ x
        (by simpa [sortCat, List.mem_mergeSort] using hx))
      (fun x hx => mem_processAlbums_rtype query _ x
        (by simpa [sortCat, List.mem_mergeSort] using hx))
      (fun x hx => mem_processPlaylists_rtype query _ x
        (by simpa [sortCat, List.mem_mergeSort] using hx))

/-! ## Media resolver: duration-window selection
(src/core/youtube.js:84-118)

A candidate that survived the metadata filter of src/core/youtube.js:64-74
(resolvable URL, numeric duration).  Durations are seconds as reported by
the index and may be fractional. -/

structure Video where
  title : String
  webpage_url : String
  duration : ℚ
deriving DecidableEq

/-- Typed failures thrown by the selection step: the no-candidate-in-window
`NotFound` (src/core/youtube.js:107) and the empty-candidate-list failure
of the no-filter branch (src/core/youtube.js:116). -/
inductive ResolveErr
  | notFoundInWindow
  | noValidVideo
deriving DecidableEq

/-- `Math.max(5, Math.min(15, targetSeconds * 0.10))`
(src/core/youtube.js:89). -/
def durationTolerance (targetSeconds : ℚ) : ℚ :=
  max 5 (min 15 (targetSeconds * (1 / 10)))

/-- `video.duration >= minDuration && video.duration <= maxDuration`
(src/core/youtube.js:95). -/
def inWindow (targetSeconds tolerance : ℚ) (v : Video) : Bool :=
  decide (targetSeconds - tolerance ≤ v.duration)
    && decide (v.duration ≤ targetSeconds + tolerance)

/-- The candidate-selection step of `searchAndDownload`
(src/core/youtube.js:84-118): with a (truthy) target duration, scan the
candidates in their original index order and accept the first whose
duration lies in the tolerance window, throwing `NotFound` when none
does; with no target duration, take the first candidate outright. -/
def selectVideoByDuration (targetDurationMs : ℚ) (videos : List Video) :
    Except ResolveErr Video :=
  if targetDurationMs ≠ 0 then
    let targetSeconds := targetDurationMs / 1000
    let tolerance := durationTolerance targetSeconds
    match videos.find? (inWindow targetSeconds tolerance) with
    | some v => .ok v
    | none => .error .notFoundInWindow
  else
    match videos with
    | v :: _ => .ok v
    | [] => .error .noValidVideo

/-- `find?` returns the first match: the list splits at the result and
everything before it fails the predicate. -/
theorem find?_eq_some_split {α : Type} (p : α → Bool) :
    ∀ (l : List α) (a : α), l.find? p = some a →
      p a = true ∧ ∃ l1 l2, l = l1 ++ a :: l2 ∧ ∀ x ∈ l1, p x = false := by
  intro l
  induction l with
  | nil =>
    intro a h
    simp at h
  | cons x xs ih =>
    intro a h
    cases hx : p x with
    | true =>
      rw [List.find?_cons_of_pos _ hx] at h
      obtain rfl : x = a := by injection h
      exact ⟨hx, [], xs, rfl, by simp⟩
    | false =>
      rw [List.find?_cons_of_neg _ (by simp [hx])] at h
      obtain ⟨hpa, l1, l2, heq, hall⟩ := ih a h
      refine ⟨hpa, x :: l1, l2, by rw [heq]; rfl, ?_⟩
      intro y hy
      rcases List.mem_cons.mp hy with rfl | hy
      · exact hx
      · exact hall y hy

/-- The tolerance for a 200000 ms target: `clamp(20, 5, 15) = 15` seconds. -/
theorem durationTolerance_200 : durationTolerance (200000 / 1000) = 15 := by
  rw [durationTolerance]
  norm_num [min_def, max_def]

/-- A 170 s candidate misses the [185 s, 215 s] window. -/
theorem inWindow_170 :
    inWindow (200000 / 1000) (durationTolerance (200000 / 1000))
      ⟨"a", "u1", 170⟩ = false := by
  simp only [inWindow, durationTolerance_200]
  norm_num

/-- A 190 s candidate lies in the [185 s, 215 s] window. -/
theorem inWindow_190 :
    inWindow (200000 / 1000) (durationTolerance (200000 / 1000))
      ⟨"b", "u2", 190⟩ = true := by
  simp only [inWindow, durationTolerance_200]
  norm_num

/-- **C9.** With a supplied target duration, the resolver accepts exactly
the first candidate (in the index's original order) whose duration lies
in `[target - tolerance, target + tolerance]` with
`tolerance = clamp(targetSeconds × 0.10, 5, 15)`; with no candidate in
the window it throws `NotFound` and never selects a mismatched
candidate.  Concretely, a 200000 ms target gives tolerance 15 s (window
[185 s, 215 s]), accepting a 190 s candidate and rejecting a 170 s one. -/
theorem media_duration_window (targetMs : ℚ) (videos : List Video)
    (hsupplied : targetMs ≠ 0) :
    (∀ v, selectVideoByDuration targetMs videos = .ok v →
      v ∈ videos
      ∧ targetMs / 1000 - durationTolerance (targetMs / 1000) ≤ v.duration
      ∧ v.duration ≤ targetMs / 1000 + durationTolerance (targetMs / 1000)
      ∧ ∃ l1 l2, videos = l1 ++ v :: l2
          ∧ ∀ w ∈ l1,
            inWindow (targetMs / 1000) (durationTolerance (targetMs / 1000)) w
              = false)
    ∧ ((∀ v ∈ videos,
        inWindow (targetMs / 1000) (durationTolerance (targetMs / 1000)) v
          = false) →
      selectVideoByDuration targetMs videos = .error .notFoundInWindow)
    ∧ durationTolerance (200000 / 1000) = 15
    ∧ selectVideoByDuration 200000 [⟨"a", "u1", 170⟩, ⟨"b", "u2", 190⟩]
        = .ok ⟨"b", "u2", 190⟩
    ∧ selectVideoByDuration 200000 [⟨"a", "u1", 170⟩]
        = .error .notFoundInWindow := by
  refine ⟨?_, ?_, durationTolerance_200, ?_, ?_⟩
  · intro v hv
    simp only [selectVideoByDuration, if_pos hsupplied] at hv
    cases hfind : videos.find?
        (inWindow (targetMs / 1000) (durationTolerance (targetMs / 1000))) with
    | none => rw [hfind] at hv; exact absurd hv (by simp)
    | some w =>
      rw [hfind] at hv
      obtain rfl : w = v := by injection hv
      obtain ⟨hw, l1, l2, heq, hall⟩ := find?_eq_some_split _ videos w hfind
      simp only [inWindow, Bool.and_eq_true, decide_eq_true_eq] at hw
      exact ⟨List.mem_of_find?_eq_some hfind, hw.1, hw.2, l1, l2, heq, hall⟩
  · intro hnone
    simp only [selectVideoByDuration, if_pos hsupplied]
    rw [List.find?_eq_none.mpr (fun x hx => by simp [hnone x hx])]
  · simp only [selectVideoByDuration,
      if_pos (show (200000 : ℚ) ≠ 0 by norm_num)]
    rw [List.find?_cons_of_neg _ (by simp [inWindow_170]),
      List.find?_cons_of_pos _ inWindow_190]
  · simp only [selectVideoByDuration,
      if_pos (show (200000 : ℚ) ≠ 0 by norm_num)]
    rw [List.find?_cons_of_neg _ (by simp [inWindow_170])]
    rfl

/-- Witness for `media_duration_window`: the accepted 190 s candidate is
drawn from the candidate list and sits above the window's lower bound. -/
theorem media_duration_window_witness :
    (⟨"b", "u2", 190⟩ : Video)
      ∈ ([⟨"a", "u1", 170⟩, ⟨"b", "u2", 190⟩] : List Video)
    ∧ (200000 : ℚ) / 1000 - durationTolerance ((200000 : ℚ) / 1000) ≤ 190 := by
  obtain ⟨hok, -, -, hsel, -⟩ :=
    media_duration_window 200000 [⟨"a", "u1", 170⟩, ⟨"b", "u2", 190⟩]
      (by norm_num)
  obtain ⟨hmem, hlo, -, -⟩ := hok _ hsel
  exact ⟨hmem, hlo⟩

end Freesound
